import Mathlib

/-!
Verification of the ECoG-loading pipeline (`load-ecog-data-w-mne.ipynb`)
against its natural-language specification.

The notebook is a linear four-stage pipeline:
1. open an NWB container file and read it;
2. slice a `(num_secs * fs, n_channels)` window out of the acquisition's
   2-D time-series array, where `fs = round(rate)`;
3. read the first epoch row as a baseline interval, and collect the
   stringified indices of electrodes flagged "bad";
4. build an MNE `RawArray` from the transposed window plus the metadata.

Shallow embedding choices:
* floating-point values (sampling rate, signal samples, epoch times) are
  modelled as rationals `ℚ`;
* a 2-D time-major array is a `List (List ℚ)`: outer index = time sample,
  inner index = channel;
* Python list/array slicing `x[a:b]` (which clips out-of-range bounds and
  never raises for slices) is `pySlice`;
* Python `round` (round-half-to-even on the rational model) is `pyRound`;
* fallible reads return `Option`.
-/

/-- Python `round` for a rational: nearest integer, ties to even
(banker's rounding), as CPython's built-in `round` behaves.  Written with
integer arithmetic on numerator and denominator: with `f = ⌊q⌋`, the value
`2 * (q.num - f * q.den)` compared with `q.den` decides whether the
fractional part `q - f` is below, above, or exactly one half. -/
def pyRound (q : ℚ) : ℤ :=
  let f : ℤ := q.num.fdiv (q.den : ℤ)
  let twiceFrac : ℤ := 2 * (q.num - f * (q.den : ℤ))
  if twiceFrac < (q.den : ℤ) then f
  else if (q.den : ℤ) < twiceFrac then f + 1
  else if f % 2 = 0 then f else f + 1

/-- `fs = round(nwb.acquisition["ElectricalSeries"].rate)` from the notebook:
the stored sampling rate rounded to the nearest integer.  The rate is a
positive real in the data model, so the result is taken as a natural. -/
def fs (rate : ℚ) : ℕ := (pyRound rate).toNat

/-- Python slice `l[a:b]` for non-negative integer bounds: the elements with
indices in `[a, min b (length l))`; clips, never raises. -/
def pySlice (l : List α) (a b : ℕ) : List α := (l.drop a).take (b - a)

/-- The window extraction from the notebook:
`signal = nwb.acquisition["ElectricalSeries"].data[start * fs:(start + num_secs) * fs, :]`
on a time-major array, with `fs = round(rate)`. -/
def extract (data : List (List ℚ)) (rate : ℚ) (start num_secs : ℕ) : List (List ℚ) :=
  pySlice data (start * fs rate) ((start + num_secs) * fs rate)

/-- The baseline read from the notebook:
`start_break = nwb.epochs["start_time"][0]`, `stop_break = nwb.epochs["stop_time"][0]`.
Scalar indexing `[0]` of an empty column raises, modelled by `none`. -/
def read_baseline (epochs : List (ℚ × ℚ)) : Option (ℚ × ℚ) :=
  match (epochs.map Prod.fst).head?, (epochs.map Prod.snd).head? with
  | some a, some b => some (a, b)
  | _, _ => none

/-- The invalid-channel read from the notebook:
`bads = [str(i) for i, bad in enumerate(nwb.electrodes["bad"][:]) if bad]`. -/
def read_invalid_channels (bad : List Bool) : List String :=
  ((bad.enum.filter (fun p => p.2)).map (fun p => toString p.1))

/-- The underlying integer indices of `read_invalid_channels`, before
stringification: `[i for i, bad in enumerate(...) if bad]`. -/
def invalidIndices (bad : List Bool) : List ℕ :=
  (bad.enum.filter (fun p => p.2)).map Prod.fst

/-- The MNE `Info` metadata built by
`info = mne.create_info(n_channels, fs, ...)`, `info["bads"] = bads`. -/
structure Info where
  nchan : ℕ
  sfreq : ℕ
  bads : List String
deriving DecidableEq

/-- numpy transpose `m.T` of a time-major matrix: entry `(c, t)` of the
result is entry `(t, c)` of the input. -/
def npTranspose (m : List (List ℚ)) : List (List ℚ) :=
  match m with
  | [] => []
  | r :: _ => (List.range r.length).map (fun c => m.map (fun row => row.getD c 0))

/-- The MNE `Raw` object: a channel-major data array plus `Info`. -/
structure RawArray where
  data : List (List ℚ)
  info : Info
deriving DecidableEq

/-- `raw = mne.io.RawArray(signal.T, info)` from the notebook: the signal
object stores the transpose of the extracted window plus the metadata. -/
def build (array : List (List ℚ)) (n_channels : ℕ) (rateInt : ℕ)
    (invalid : List String) : RawArray :=
  { data := npTranspose array
    info := { nchan := n_channels, sfreq := rateInt, bads := invalid } }

/-- The relevant contents of the NWB container: the acquisition's sampling
rate and 2-D data array, the epoch table rows, and the electrode table's
boolean "bad" column. -/
structure NWBFile where
  rate : ℚ
  data : List (List ℚ)
  epochs : List (ℚ × ℚ)
  bad : List Bool

/-- The whole pipeline of the notebook as one function of the file contents
and the invocation parameters: extract the window, read the baseline, read
the invalid channels, build the signal object.  A failing stage (empty
epoch table) aborts the run with `none`. -/
def runPipeline (file : NWBFile) (start num_secs : ℕ) :
    Option (RawArray × (ℚ × ℚ)) :=
  let sig := extract file.data file.rate start num_secs
  let n_channels := (sig.headD []).length
  match read_baseline file.epochs with
  | none => none
  | some bl =>
      some (build sig n_channels (fs file.rate) (read_invalid_channels file.bad), bl)

/-- Events of one run of the notebook, in program order.  The notebook opens
the container with `pynwb.NWBHDF5IO(filepath, "r").read()` and never calls
`close` (no `with` block): no `closeFile` event occurs. -/
inductive PipelineEvent where
  | openFile
  | readAcquisition
  | extractWindow
  | readBaseline
  | readBads
  | buildRaw
  | closeFile
deriving DecidableEq

/-- The event trace of the notebook's single linear run, in source order. -/
def pipelineTrace : List PipelineEvent :=
  [.openFile, .readAcquisition, .extractWindow, .readBaseline, .readBads, .buildRaw]

/-! ### Helper lemmas -/

theorem pySlice_sublist (l : List α) (a b : ℕ) : List.Sublist (pySlice l a b) l :=
  (List.take_sublist _ _).trans (List.drop_sublist _ _)

theorem pySlice_length (l : List α) (a b : ℕ) (hb : b ≤ l.length) :
    (pySlice l a b).length = b - a := by
  simp only [pySlice, List.length_take, List.length_drop]
  omega

theorem pySlice_getElem? (l : List α) (a b i : ℕ) (h : i < b - a) :
    (pySlice l a b)[i]? = l[a + i]? := by
  unfold pySlice
  rw [List.getElem?_take_of_lt h, List.getElem?_drop]

theorem enumFrom_filter_map_fst (bad : List Bool) : ∀ k : ℕ,
    ((bad.enumFrom k).filter (fun p => p.2)).map Prod.fst =
      ((List.range bad.length).filter (fun i => bad.getD i false)).map (fun i => k + i) := by
  induction bad with
  | nil => intro k; rfl
  | cons b rest ih =>
      intro k
      cases b with
      | false =>
          simp only [List.enumFrom_cons, List.filter_cons, List.length_cons,
            List.range_succ_eq_map, List.getD_cons_zero, List.getD_cons_succ,
            List.filter_map, List.map_map, Bool.false_eq_true, if_false, ih]
          apply List.map_congr_left
          intro i _
          simp [Function.comp]
          omega
      | true =>
          simp only [List.enumFrom_cons, List.filter_cons, List.length_cons,
            List.range_succ_eq_map, List.getD_cons_zero, List.getD_cons_succ,
            List.filter_map, List.map_map, if_true, ih, List.map_cons]
          congr 1
          apply List.map_congr_left
          intro i _
          simp [Function.comp]
          omega

theorem invalidIndices_eq_range_filter (bad : List Bool) :
    invalidIndices bad =
      (List.range bad.length).filter (fun i => bad.getD i false) := by
  have h := enumFrom_filter_map_fst bad 0
  simp only [Nat.zero_add] at h
  simpa [invalidIndices, List.enum] using h

theorem filter_snd_enumFrom_replicate_false (n k : ℕ) :
    ((List.replicate n false).enumFrom k).filter (fun p => p.2) = [] := by
  induction n generalizing k with
  | zero => rfl
  | succ m ih =>
      simp only [List.replicate_succ, List.enumFrom_cons, List.filter_cons]
      simpa using ih (k + 1)

/-! ### Claims -/

/-- C3: for every container whose epoch table is non-empty, `read_baseline`
returns the (start_time, stop_time) pair of the first row, regardless of how
many later rows exist or what they contain; in particular on rows
`[(318.0, 334.0), (400.0, 420.0)]` it returns `(318.0, 334.0)`. -/
theorem read_baseline_first_row :
    (∀ (a : ℚ × ℚ) (l : List (ℚ × ℚ)), read_baseline (a :: l) = some a) ∧
      read_baseline [((318 : ℚ), (334 : ℚ)), (400, 420)] = some (318, 334) :=
  ⟨fun _ _ => rfl, by decide⟩

/-- C4: for every container whose epoch table is empty, `read_baseline` fails
(no first-row scalar index exists), and the whole pipeline run aborts with no
partial result. -/
theorem read_baseline_empty_fails (file : NWBFile) (start num_secs : ℕ)
    (h : file.epochs = []) :
    read_baseline file.epochs = none ∧ runPipeline file start num_secs = none := by
  refine ⟨by rw [h]; rfl, ?_⟩
  simp only [runPipeline, h]
  rfl

/-- Witness for C4 at a concrete container with an empty epoch table. -/
theorem read_baseline_empty_fails_witness :
    (NWBFile.mk 1 [[1]] [] [true]).epochs = [] ∧
      (read_baseline (NWBFile.mk 1 [[1]] [] [true]).epochs = none ∧
        runPipeline (NWBFile.mk 1 [[1]] [] [true]) 0 1 = none) :=
  ⟨rfl, read_baseline_empty_fails (NWBFile.mk 1 [[1]] [] [true]) 0 1 rfl⟩

/-- C5: `read_invalid_channels` returns exactly the decimal strings of the
indices whose "bad" flag is true, scanned in table row order; on a table with
no flagged rows it returns the empty sequence, and on a table where exactly
the rows at positions 3 and 7 are flagged it returns `["3", "7"]`. -/
theorem read_invalid_channels_spec :
    (∀ bad : List Bool,
        read_invalid_channels bad =
          (((List.range bad.length).filter (fun i => bad.getD i false)).map
            (fun i => toString i))) ∧
      (∀ n : ℕ, read_invalid_channels (List.replicate n false) = []) ∧
      read_invalid_channels [false, false, false, true, false, false, false, true] =
        ["3", "7"] := by
  refine ⟨?_, ?_, by decide⟩
  · intro bad
    have h : read_invalid_channels bad = (invalidIndices bad).map (fun i => toString i) := by
      simp [read_invalid_channels, invalidIndices, List.map_map, Function.comp]
    rw [h, invalidIndices_eq_range_filter]
  · intro n
    simp [read_invalid_channels, List.enum, filter_snd_enumFrom_replicate_false]

/-- C10: every element of the invalid-channel list is the decimal string of
an index in `[0, N)` for a table of `N` rows, the underlying indices are
pairwise strictly increasing (hence distinct), and the list is never longer
than `N`. -/
theorem invalid_channels_invariant (bad : List Bool) :
    read_invalid_channels bad = (invalidIndices bad).map (fun i => toString i) ∧
      List.Pairwise (· < ·) (invalidIndices bad) ∧
      (∀ i ∈ invalidIndices bad, i < bad.length) ∧
      (read_invalid_channels bad).length ≤ bad.length := by
  have hsub : List.Sublist (invalidIndices bad) (List.range bad.length) := by
    rw [invalidIndices_eq_range_filter]
    exact List.filter_sublist _
  have hmap : read_invalid_channels bad = (invalidIndices bad).map (fun i => toString i) := by
    simp [read_invalid_channels, invalidIndices, List.map_map, Function.comp]
  refine ⟨hmap, List.Pairwise.sublist hsub (List.pairwise_lt_range _), ?_, ?_⟩
  · intro i hi
    exact List.mem_range.mp (hsub.subset hi)
  · calc (read_invalid_channels bad).length
        = (invalidIndices bad).length := by rw [hmap, List.length_map]
      _ ≤ (List.range bad.length).length := hsub.length_le
      _ = bad.length := List.length_range _

/-- Witness for C10 at a concrete electrode table, discharging the
membership hypothesis of the third conjunct. -/
theorem invalid_channels_invariant_witness :
    (1 ∈ invalidIndices [false, true, true]) ∧ 1 < 3 :=
  ⟨by decide, (invalid_channels_invariant [false, true, true]).2.2.1 1 (by decide)⟩

/-- C1: for every record and every window request with
`(start + duration) * round(rate) ≤ total_samples`, the extraction returns a
2-D array of shape `[duration * round(rate), channel_count]`, taken as the
half-open slice `[round(rate) * start, round(rate) * (start + duration))`
along the time axis, with every row (time sample) keeping all channels. -/
theorem extract_shape_inBounds (data : List (List ℚ)) (rate : ℚ)
    (start num_secs C : ℕ)
    (hC : ∀ row ∈ data, row.length = C)
    (hbound : (start + num_secs) * fs rate ≤ data.length) :
    (extract data rate start num_secs).length = num_secs * fs rate ∧
      (∀ row ∈ extract data rate start num_secs, row.length = C) ∧
      (∀ i, i < num_secs * fs rate →
        (extract data rate start num_secs)[i]? = data[start * fs rate + i]?) := by
  have hdiff : (start + num_secs) * fs rate - start * fs rate = num_secs * fs rate := by
    rw [Nat.add_mul]; omega
  refine ⟨?_, ?_, ?_⟩
  · rw [extract, pySlice_length _ _ _ hbound, hdiff]
  · intro row hrow
    exact hC row ((pySlice_sublist _ _ _).subset hrow)
  · intro i hi
    rw [extract, pySlice_getElem?]
    rw [hdiff]
    exact hi

/-- Witness for C1 at a concrete 4-sample, 2-channel record with rate 2,
start 0, duration 1. -/
theorem extract_shape_inBounds_witness :
    (∀ row ∈ [[(1 : ℚ), 2], [3, 4], [5, 6], [7, 8]], row.length = 2) ∧
      (0 + 1) * fs 2 ≤ ([[(1 : ℚ), 2], [3, 4], [5, 6], [7, 8]] : List (List ℚ)).length ∧
      (extract [[(1 : ℚ), 2], [3, 4], [5, 6], [7, 8]] 2 0 1).length = 1 * fs 2 :=
  ⟨by decide, by decide,
    (extract_shape_inBounds [[(1 : ℚ), 2], [3, 4], [5, 6], [7, 8]] 2 0 1 2
      (by decide) (by decide)).1⟩

/-- C2 counterexample: on a record with 10 total samples and rounded rate 1,
the window (start 0, duration 20) has upper bound 20 > 10, yet the extraction
raises nothing and returns the truncated 10-row array. -/
theorem extract_overrun_counterexample :
    (List.replicate 10 [(0 : ℚ)]).length < (0 + 20) * fs 1 ∧
      extract (List.replicate 10 [(0 : ℚ)]) 1 0 20 = List.replicate 10 [(0 : ℚ)] ∧
      (extract (List.replicate 10 [(0 : ℚ)]) 1 0 20).length = 10 ∧
      (10 : ℕ) < 20 * fs 1 := by decide

/-- C2 amended: when the upper sample bound exceeds the record's total sample
count, the extraction raises no error and returns the clipped slice — every
sample from `round(rate) * start` to the end of the record, so
`total_samples - round(rate) * start` rows instead of the requested count. -/
theorem extract_overrun_clips (data : List (List ℚ)) (rate : ℚ)
    (start num_secs : ℕ)
    (hover : data.length < (start + num_secs) * fs rate) :
    extract data rate start num_secs = data.drop (start * fs rate) ∧
      (extract data rate start num_secs).length = data.length - start * fs rate := by
  have h1 : extract data rate start num_secs = data.drop (start * fs rate) := by
    rw [extract, pySlice]
    apply List.take_of_length_le
    rw [List.length_drop]
    have h2 : (start + num_secs) * fs rate = start * fs rate + num_secs * fs rate :=
      Nat.add_mul start num_secs (fs rate)
    omega
  exact ⟨h1, by rw [h1, List.length_drop]⟩

/-- Witness for C2's amended claim: 10 samples, rate 1, start 2, duration 20:
the result is the 8-row tail, not an error. -/
theorem extract_overrun_clips_witness :
    (List.replicate 10 [(0 : ℚ)]).length < (2 + 20) * fs 1 ∧
      (extract (List.replicate 10 [(0 : ℚ)]) 1 2 20).length =
        (List.replicate 10 [(0 : ℚ)]).length - 2 * fs 1 := by
  have h : (List.replicate 10 [(0 : ℚ)]).length < (2 + 20) * fs 1 := by decide
  exact ⟨h, (extract_overrun_clips (List.replicate 10 [(0 : ℚ)]) 1 2 20 h).2⟩

/-- C7: the window extraction uses the stored sampling rate rounded to the
nearest integer; for stored rate 400.7 the rounded rate is 401, and a
60-second window has exactly 24060 time samples. -/
theorem rounded_rate_window (data : List (List ℚ))
    (h : (20 + 60) * fs (mkRat 4007 10) ≤ data.length) :
    fs (mkRat 4007 10) = 401 ∧
      (extract data (mkRat 4007 10) 20 60).length = 24060 := by
  have hfs : fs (mkRat 4007 10) = 401 := by decide
  refine ⟨hfs, ?_⟩
  rw [extract, pySlice_length _ _ _ h, hfs]

/-- Witness for C7 on a record of 32080 samples. -/
theorem rounded_rate_window_witness :
    (20 + 60) * fs (mkRat 4007 10) ≤ (List.replicate 32080 ([] : List ℚ)).length ∧
      (extract (List.replicate 32080 ([] : List ℚ)) (mkRat 4007 10) 20 60).length = 24060 := by
  have h : (20 + 60) * fs (mkRat 4007 10) ≤ (List.replicate 32080 ([] : List ℚ)).length := by
    simp only [List.length_replicate]
    decide
  exact ⟨h, (rounded_rate_window _ h).2⟩

theorem npTranspose_getD (r : List ℚ) (rest : List (List ℚ)) (t c : ℕ)
    (ht : t < (r :: rest).length) (hc : c < r.length) :
    ((npTranspose (r :: rest)).getD c []).getD t 0 =
      ((r :: rest).getD t []).getD c 0 := by
  have h1 : (npTranspose (r :: rest)).getD c [] =
      (r :: rest).map (fun row => row.getD c 0) := by
    simp only [npTranspose, List.getD_eq_getElem?_getD, List.getElem?_map,
      List.getElem?_range hc, Option.map_some', Option.getD_some]
  rw [h1]
  simp only [List.getD_eq_getElem?_getD, List.getElem?_map,
    List.getElem?_eq_getElem ht, Option.map_some', Option.getD_some]

/-- C6: for every input array of shape `[T, C]` with `T > 0`, the array stored
in the signal object built by `build` is the transpose of the input: its shape
is `[C, T]` and its element at `(c, t)` equals the input's element at
`(t, c)` for all `t < T`, `c < C`, with no element value modified.  (An empty
time axis is excluded: a `[0, C]` list-of-rows array does not determine `C`.) -/
theorem build_stores_transpose (m : List (List ℚ)) (T C n_channels rateInt : ℕ)
    (invalid : List String)
    (hT : m.length = T) (hC : ∀ row ∈ m, row.length = C) (hpos : 0 < T) :
    ((build m n_channels rateInt invalid).data).length = C ∧
      (∀ row ∈ (build m n_channels rateInt invalid).data, row.length = T) ∧
      (∀ t c, t < T → c < C →
        (((build m n_channels rateInt invalid).data.getD c []).getD t 0) =
          ((m.getD t []).getD c 0)) := by
  cases m with
  | nil => rw [List.length_nil] at hT; omega
  | cons r rest =>
      have hr : r.length = C := hC r (List.mem_cons_self r rest)
      refine ⟨?_, ?_, ?_⟩
      · simp [build, npTranspose, hr]
      · intro row hrow
        simp only [build, npTranspose] at hrow
        obtain ⟨c, _, rfl⟩ := List.mem_map.mp hrow
        rw [List.length_map]
        exact hT
      · intro t c ht hc
        have ht' : t < (r :: rest).length := by rw [hT]; exact ht
        have hc' : c < r.length := by rw [hr]; exact hc
        exact npTranspose_getD r rest t c ht' hc'

/-- Witness for C6 at the concrete 2-by-3 array `[[1,2,3],[4,5,6]]`. -/
theorem build_stores_transpose_witness :
    (([[(1 : ℚ), 2, 3], [4, 5, 6]] : List (List ℚ)).length = 2) ∧
      (∀ row ∈ ([[(1 : ℚ), 2, 3], [4, 5, 6]] : List (List ℚ)), row.length = 3) ∧
      ((build [[(1 : ℚ), 2, 3], [4, 5, 6]] 3 1 []).data).length = 3 :=
  ⟨by decide, by decide,
    (build_stores_transpose [[(1 : ℚ), 2, 3], [4, 5, 6]] 2 3 3 1 []
      (by decide) (by decide) (by decide)).1⟩

/-- C8 counterexample: the claim says every run closes (releases) the
container handle; but the notebook's run trace contains no close/release
event at all (the `NWBHDF5IO` handle is opened inline and never closed). -/
theorem container_never_closed_counterexample :
    PipelineEvent.closeFile ∉ pipelineTrace := by decide

/-- C8 amended: the pipeline itself never releases the container handle: no
close event occurs anywhere in the run, neither after the signal object is
built nor on early abort; the handle is left open when the run ends. -/
theorem container_never_closed :
    pipelineTrace.count PipelineEvent.closeFile = 0 ∧
      pipelineTrace.getLast? = some PipelineEvent.buildRaw := by decide

/-- C9: the pipeline is deterministic and stateless: its every output — the
extracted window, the baseline pair, the invalid-channel list, and the built
signal object — is a function of the file contents and the invocation
parameters alone, so two runs on equal inputs agree on all of them. -/
theorem pipeline_deterministic (f₁ f₂ : NWBFile) (s₁ s₂ d₁ d₂ : ℕ)
    (hf : f₁ = f₂) (hs : s₁ = s₂) (hd : d₁ = d₂) :
    extract f₁.data f₁.rate s₁ d₁ = extract f₂.data f₂.rate s₂ d₂ ∧
      read_baseline f₁.epochs = read_baseline f₂.epochs ∧
      read_invalid_channels f₁.bad = read_invalid_channels f₂.bad ∧
      runPipeline f₁ s₁ d₁ = runPipeline f₂ s₂ d₂ := by
  subst hf hs hd
  exact ⟨rfl, rfl, rfl, rfl⟩

/-- Witness for C9 at a concrete file and concrete parameters. -/
theorem pipeline_deterministic_witness :
    runPipeline (NWBFile.mk 2 [[1], [2]] [(318, 334)] [true]) 0 1 =
      runPipeline (NWBFile.mk 2 [[1], [2]] [(318, 334)] [true]) 0 1 :=
  (pipeline_deterministic (NWBFile.mk 2 [[1], [2]] [(318, 334)] [true])
    (NWBFile.mk 2 [[1], [2]] [(318, 334)] [true]) 0 0 1 1 rfl rfl rfl).2.2.2
